import Mathlib

/-!
Shallow embedding of `src/main.py` (teletext page fetch / filter / render /
assemble / email pipeline) and verification of its specified properties.

Images are modelled as flat row-major pixel sequences, exactly the view the
program itself takes (`img.getdata()`), together with their dimensions.
Pixel values of mode-"L" images are naturals in 0..255; decoded source
images are RGB triples. All side-effecting steps (network fetch, file
writes, SMTP session) are modelled as explicit traces so that claims about
"what was written / sent / fetched" become statements about lists.
-/

namespace Teletext

/-- An RGB pixel of the decoded source image. -/
structure RGB where
  r : Nat
  g : Nat
  b : Nat
deriving DecidableEq, Repr

/-- A decoded raster image as the Fetcher produces it (`Image.open`). -/
structure ImageRGB where
  width : Nat
  height : Nat
  data : List RGB
deriving DecidableEq, Repr

/-- A single-channel (mode "L") image, as produced by `img.convert("L")`
and consumed by the rest of the per-page transform. -/
structure ImageL where
  width : Nat
  height : Nat
  data : List Nat
deriving DecidableEq, Repr

/-- PIL `convert("L")`: ITU-R 601-2 luma transform, computed in fixed
point as `(R*19595 + G*38470 + B*7471 + 2^15) >> 16` (the three
coefficients sum to `2^16`). -/
def toGray (c : RGB) : Nat :=
  (c.r * 19595 + c.g * 38470 + c.b * 7471 + 32768) / 65536

/-- Line 46: `img = img.convert("L")`. -/
def convertL (img : ImageRGB) : ImageL :=
  ⟨img.width, img.height, img.data.map toGray⟩

/-- Line 48: `threshold = 128`. -/
def threshold : Nat := 128

/-- Line 49: the point map `lambda p: 255 if p > threshold else 0`. -/
def binarize (p : Nat) : Nat :=
  if threshold < p then 255 else 0

/-- Line 49: `img = img.point(...)` applies `binarize` to every pixel. -/
def pointBin (img : ImageL) : ImageL :=
  ⟨img.width, img.height, img.data.map binarize⟩

/-- `ImageOps.invert` on a mode-"L" pixel: `255 - p`. -/
def invertPixel (p : Nat) : Nat := 255 - p

/-- Line 51: `img = ImageOps.invert(img)`. -/
def invertImg (img : ImageL) : ImageL :=
  ⟨img.width, img.height, img.data.map invertPixel⟩

/-- Lines 46-51: the unconditional per-pixel preprocessing the code applies
to every successfully fetched image before the uniformity test:
grayscale, then binarize, then invert. -/
def preprocess (img : ImageRGB) : ImageL :=
  invertImg (pointBin (convertL img))

/-- Lines 52-54: `first_pixel = pixels[0]`;
`all(pixel == first_pixel for pixel in pixels)`. -/
def isUniform (img : ImageL) : Bool :=
  match img.data with
  | [] => true
  | p :: _ => img.data.all (fun q => q == p)

/-- A text bounding box as returned by `font.getbbox(text)`:
`(x0, y0, x1, y1)`. -/
structure BBox where
  x0 : Int
  y0 : Int
  x1 : Int
  y1 : Int

/-- A font, abstracted to the one capability the code uses of it:
measuring a string (line 67). Whether `arial.ttf` loaded or the default
bitmap font was substituted (lines 62-65) only changes which `Font` value
flows into the transform. -/
structure Font where
  getbbox : String → BBox

/-- Line 58: `extra_height = 20`. -/
def extra_height : Nat := 20

/-- Lines 59-60: `Image.new("L", (img.width, img.height + extra_height), 255)`
followed by `new_img.paste(img, (0, 0))`: the original rows, then a
20-pixel-tall strip of white (255) rows. -/
def composeCanvas (img : ImageL) : ImageL :=
  ⟨img.width, img.height + extra_height,
    img.data ++ List.replicate (img.width * extra_height) 255⟩

/-- Line 66: `text = f"Page {page}"`. -/
def pageText (page : Nat) : String :=
  "Page " ++ toString page

/-- A recorded `draw.text` call: position, text and fill value. -/
structure StampOp where
  pos : Int × Int
  text : String
  fill : Nat
deriving DecidableEq, Repr

/-- Lines 66-71: measure the label with the font, centre it horizontally
across the canvas width and vertically inside the added strip (Python `//`
is floor division, `Int.fdiv` here), and draw it in black (fill 0).
`img` is the image before composition, so `new_img.width = img.width`. -/
def mkStamp (font : Font) (img : ImageL) (page : Nat) : StampOp :=
  let text := pageText page
  let b := font.getbbox text
  let text_width := b.x1 - b.x0
  let text_height := b.y1 - b.y0
  let x := ((img.width : Int) - text_width).fdiv 2
  let y := (img.height : Int) + ((extra_height : Int) - text_height).fdiv 2
  ⟨(x, y), text, 0⟩

/-- The saved per-page output: the composed canvas plus the one text-draw
operation performed on it. -/
structure RenderedPage where
  canvas : ImageL
  stamp : StampOp
deriving DecidableEq, Repr

/-- Lines 57-71 for a page that passed the filter: compose onto the taller
canvas and stamp the footer. -/
def renderPage (font : Font) (img : ImageL) (page : Nat) : RenderedPage :=
  ⟨composeCanvas img, mkStamp font img page⟩

/-- Lines 44-74: what happens to one successfully fetched decoded image:
preprocess, test uniformity, and either discard (`none`) or render. -/
def processPage (font : Font) (img : ImageRGB) (page : Nat) :
    Option RenderedPage :=
  let pre := preprocess img
  if isUniform pre then none
  else some (renderPage font pre page)

/-- The image operations of the per-page transform, for tracing which of
them run on which pages. -/
inductive Op where
  | grayscale
  | binarizeOp
  | invertOp
  | composeOp
  | stampTextOp
deriving DecidableEq, Repr

/-- Lines 44-74 again, instrumented: the same computation as `processPage`
but also emitting, in order, the image operations actually applied to this
page. Grayscale, binarize and invert run before the uniformity test;
compose and stamp run only in the non-uniform branch. -/
def processPageTr (font : Font) (img : ImageRGB) (page : Nat) :
    Option RenderedPage × List Op :=
  let g := convertL img
  let ops1 := [Op.grayscale]
  let b := pointBin g
  let ops2 := ops1 ++ [Op.binarizeOp]
  let i := invertImg b
  let ops3 := ops2 ++ [Op.invertOp]
  if isUniform i then (none, ops3)
  else
    let c := composeCanvas i
    let ops4 := ops3 ++ [Op.composeOp]
    let st := mkStamp font i page
    let ops5 := ops4 ++ [Op.stampTextOp]
    (some ⟨c, st⟩, ops5)

/-- One HTTP response: status code and (when the status is 200) the
decoded image content. -/
structure Response where
  status : Nat
  content : ImageRGB
deriving DecidableEq, Repr

/-- Line 39: `range(start_page, end_page)`. -/
def pageRange (start_page end_page : Nat) : List Nat :=
  List.range' start_page (end_page - start_page)

/-- Lines 39-76: the fetch loop. For each page in order: request it; on
status 200 run the per-page transform and keep the rendered result if the
page survived the filter; otherwise skip. Returns the `saved_images`
list, each entry tagged with its page number, in append order. -/
def processPages (font : Font) (fetch : Nat → Response) :
    List Nat → List (Nat × RenderedPage)
  | [] => []
  | p :: rest =>
    let response := fetch p
    if response.status = 200 then
      match processPage font response.content p with
      | some rp => (p, rp) :: processPages font fetch rest
      | none => processPages font fetch rest
    else
      processPages font fetch rest

/-- A file created by the run: one PNG per saved page (line 73), and the
final PDF (line 84). -/
inductive FileWrite where
  | pageImage (page : Nat)
  | pdf
deriving DecidableEq, Repr

/-- Everything observable about one run of
`download_teletext_images_and_create_pdf`: the pages requested, the saved
pages, the files written, and the returned document (the ordered pages of
the assembled PDF) or `none`. -/
structure RunOutput where
  requests : List Nat
  saved : List (Nat × RenderedPage)
  writes : List FileWrite
  result : Option (List (Nat × RenderedPage))
deriving DecidableEq

/-- Lines 28-89: the whole function. Every page of the range is requested
(line 41 runs unconditionally); each saved page wrote its PNG; the PDF is
written and returned exactly when `saved_images` is non-empty (lines
82-89), containing the saved pages in list order (lines 83-84). -/
def download_teletext_images_and_create_pdf (font : Font)
    (fetch : Nat → Response) (start_page end_page : Nat) : RunOutput :=
  let pages := pageRange start_page end_page
  let saved := processPages font fetch pages
  let pngWrites := saved.map (fun pr => FileWrite.pageImage pr.1)
  if saved.isEmpty then
    ⟨pages, saved, pngWrites, none⟩
  else
    ⟨pages, saved, pngWrites ++ [FileWrite.pdf], some saved⟩

/-- One step of the Notifier's effect trace, in the order the code
performs them: read the attachment (lines 117-119), open the TLS session
(line 121), log in (line 122), send (line 123). -/
inductive EmailStep where
  | readAttachment (path : String)
  | connect (host : String) (port : Nat)
  | login (user : String)
  | sendMessage (recipient : String)
deriving DecidableEq, Repr

/-- Line 109's `ValueError` message. -/
def valueErrorMsg : String :=
  "Sender email or password not set in environment variables."

/-- Lines 91-124: `send_pdf_via_email`. Python's `not s` on a string is
`s == ""`. If either credential is empty the `ValueError` is raised on
lines 108-109, before anything else happens (empty trace); otherwise the
message is built, the attachment read, and one authenticated TLS session
to `smtp.seznam.cz:465` sends it. -/
def send_pdf_via_email (pdf_path sender_email sender_password
    recipient_email _subject _body : String) :
    List EmailStep × Except String Unit :=
  if sender_email = "" || sender_password = "" then
    ([], Except.error valueErrorMsg)
  else
    ([EmailStep.readAttachment pdf_path,
      EmailStep.connect "smtp.seznam.cz" 465,
      EmailStep.login sender_email,
      EmailStep.sendMessage recipient_email],
     Except.ok ())

/-- Lines 126-129: `main` runs the pipeline with its default arguments
(start 100, end 170) and invokes the Notifier only when a document was
produced. `none` means the Notifier was never invoked. -/
def main_run (font : Font) (fetch : Nat → Response)
    (sender_email sender_password recipient_email : String) :
    Option (List EmailStep × Except String Unit) :=
  let out := download_teletext_images_and_create_pdf font fetch 100 170
  match out.result with
  | none => none
  | some _ =>
    some (send_pdf_via_email "Teletext.pdf" sender_email sender_password
      recipient_email "Teletext PDF" "Please find the attached PDF.")

/-- The relational (small-step) reading of the per-page transform of lines
44-71, for stating determinism: each constructor premise fixes one stage's
output from the previous stage's. -/
inductive PipelineRun : Font → ImageRGB → Nat → RenderedPage → Prop where
  | run : ∀ (font : Font) (img : ImageRGB) (page : Nat)
      (g b i c : ImageL) (st : StampOp),
      g = convertL img →
      b = pointBin g →
      i = invertImg b →
      c = composeCanvas i →
      st = mkStamp font i page →
      PipelineRun font img page ⟨c, st⟩

/-- Modelled from the spec: the single pixel map that the spec says the
binarize-then-invert pair amounts to (claim about lines 47-51): `p ↦ 0`
when `p > 128`, else `255`. For refinement comparison only. -/
def binInvSpec (p : Nat) : Nat :=
  if 128 < p then 0 else 255

/-- A fixed concrete font for witnesses: every string measures as a
48 × 11 box based at the origin. -/
def defaultFont : Font :=
  ⟨fun _ => ⟨0, 0, 48, 11⟩⟩

/-- Concrete decoded image whose pixels differ (gray levels 10 and 50)
but whose binarization is uniformly 0: both levels are below the 128
threshold. -/
def cexImg : ImageRGB :=
  ⟨2, 1, [⟨10, 10, 10⟩, ⟨50, 50, 50⟩]⟩

/-- Concrete decoded image that survives the filter: gray levels 200 and
50 binarize to 255 and 0. -/
def wImg : ImageRGB :=
  ⟨2, 1, [⟨200, 200, 200⟩, ⟨50, 50, 50⟩]⟩

/-- The rendered page the code produces for `wImg` at page 100. -/
def wRP : RenderedPage :=
  renderPage defaultFont (preprocess wImg) 100

/-- Concrete mode-"L" image used by pixel-level witnesses. -/
def wImgL : ImageL :=
  ⟨2, 1, [200, 50]⟩

/-- Concrete uniform decoded image (solid black). -/
def uniImg : ImageRGB :=
  ⟨1, 1, [⟨0, 0, 0⟩]⟩

/-- Binarize then invert, pointwise, is the single map `binInvSpec`. -/
lemma invertPixel_binarize (p : Nat) :
    invertPixel (binarize p) = binInvSpec p := by
  unfold invertPixel binarize binInvSpec threshold
  split <;> rfl

/-- The uniformity test of lines 52-54 accepts exactly the images all of
whose pixels are pairwise equal. -/
lemma isUniform_iff (img : ImageL) :
    isUniform img = true ↔ ∀ q ∈ img.data, ∀ r ∈ img.data, q = r := by
  rcases img with ⟨w, h, data⟩
  cases data with
  | nil => simp [isUniform]
  | cons p rest =>
    simp only [isUniform, List.all_eq_true, beq_iff_eq]
    constructor
    · intro hall q hq r hr
      rw [hall q hq, hall r hr]
    · intro hpair q hq
      exact hpair q hq p (List.mem_cons_self p rest)

/-- Characterisation of `processPage`: the page is discarded exactly when
the preprocessed image is uniform, and otherwise its rendering is kept. -/
lemma processPage_eq_none_iff (font : Font) (img : ImageRGB) (page : Nat) :
    processPage font img page = none ↔ isUniform (preprocess img) = true := by
  simp only [processPage]
  split <;> simp_all

/-- C1 is refuted on the code: `cexImg` is a decoded image with two
differing pixels (gray levels 10 and 50), yet the filter discards it,
because the uniformity test runs on the binarized-and-inverted image
(both levels binarize to 0), not on the decoded image. -/
theorem C1_counterexample :
    (∃ p ∈ cexImg.data, ∃ q ∈ cexImg.data, p ≠ q) ∧
    processPage defaultFont cexImg 100 = none := by
  constructor
  · exact ⟨⟨10, 10, 10⟩, by decide, ⟨50, 50, 50⟩, by decide, by decide⟩
  · decide

/-- C1 (amended): for a decoded image with at least one pixel, the filter
discards the page if and only if every pixel of the preprocessed
(grayscale, binarized, inverted) image equals every other — equivalently,
equals the first; otherwise the page is kept. -/
theorem C1_filter_on_preprocessed (font : Font) (img : ImageRGB)
    (page : Nat) (hne : img.data ≠ []) :
    processPage font img page = none ↔
      ∀ q ∈ (preprocess img).data, ∀ r ∈ (preprocess img).data, q = r := by
  rw [processPage_eq_none_iff, isUniform_iff]

/-- C1 amended-claim witness at a concrete kept image: `wImg` has a
non-uniform preprocessing, so it is not discarded. -/
theorem C1_filter_on_preprocessed_witness :
    wImg.data ≠ [] ∧
    (processPage defaultFont wImg 100 = none ↔
      ∀ q ∈ (preprocess wImg).data, ∀ r ∈ (preprocess wImg).data, q = r) :=
  ⟨by decide, C1_filter_on_preprocessed defaultFont wImg 100 (by decide)⟩

/-- C5: binarization maps the pixel at every position of the grayscale
image to 255 exactly when it exceeds 128, and to 0 otherwise. -/
theorem C5_binarize_threshold (img : ImageL) (i : Nat) (p : Nat)
    (h : img.data[i]? = some p) :
    ∃ q, (pointBin img).data[i]? = some q ∧
      (q = 255 ↔ 128 < p) ∧ (q = 0 ↔ ¬ 128 < p) := by
  refine ⟨binarize p, ?_, ?_, ?_⟩
  · simp [pointBin, List.getElem?_map, h]
  · by_cases hp : 128 < p <;> simp [binarize, threshold, hp]
  · by_cases hp : 128 < p <;> simp [binarize, threshold, hp]

/-- C5 witness: pixel 200 at index 0 of `wImgL` binarizes to 255. -/
theorem C5_binarize_threshold_witness :
    wImgL.data[0]? = some 200 ∧
    ∃ q, (pointBin wImgL).data[0]? = some q ∧
      (q = 255 ↔ 128 < 200) ∧ (q = 0 ↔ ¬ 128 < 200) :=
  ⟨rfl, C5_binarize_threshold wImgL 0 200 rfl⟩

/-- C10: binarize-then-invert on the whole image is exactly the single
pixel map `binInvSpec` (0 when above the threshold, 255 otherwise), and
consequently every pixel of the preprocessed image is 0 or 255. -/
theorem C10_binarize_invert_fusion (img : ImageL) :
    (invertImg (pointBin img)).data = img.data.map binInvSpec ∧
    ∀ q ∈ (invertImg (pointBin img)).data, q = 0 ∨ q = 255 := by
  have hdata : (invertImg (pointBin img)).data = img.data.map binInvSpec := by
    simp only [invertImg, pointBin, List.map_map]
    exact List.map_congr_left fun p _ => invertPixel_binarize p
  refine ⟨hdata, ?_⟩
  intro q hq
  rw [hdata] at hq
  obtain ⟨p, _, hp⟩ := List.mem_map.mp hq
  unfold binInvSpec at hp
  by_cases h128 : 128 < p
  · left; rw [← hp]; simp [h128]
  · right; rw [← hp]; simp [h128]

/-- C10 witness: on the concrete image `wImgL` the fused map applies, and
its first output pixel 0 is indeed 0-or-255. -/
theorem C10_binarize_invert_fusion_witness :
    (invertImg (pointBin wImgL)).data = wImgL.data.map binInvSpec ∧
    ((0 : Nat) = 0 ∨ (0 : Nat) = 255) :=
  ⟨(C10_binarize_invert_fusion wImgL).1,
   (C10_binarize_invert_fusion wImgL).2 0 (by decide)⟩

/-- C4 is refuted on the code: `uniImg` fails the uniformity filter (the
result is `none`), yet grayscale, binarize and invert were all applied to
it — lines 46-51 run on every fetched page before the filter on line 54. -/
theorem C4_counterexample :
    (processPageTr defaultFont uniImg 100).1 = none ∧
    Op.grayscale ∈ (processPageTr defaultFont uniImg 100).2 ∧
    Op.binarizeOp ∈ (processPageTr defaultFont uniImg 100).2 ∧
    Op.invertOp ∈ (processPageTr defaultFont uniImg 100).2 := by
  decide

/-- C4 (amended): grayscale, binarize and invert are applied, in that
order, to every successfully fetched page before the uniformity test;
only compose and stamp are restricted to pages that passed the filter,
and a kept page sees exactly the five operations in the fixed order
grayscale, binarize, invert, compose, stamp. -/
theorem C4_transform_order (font : Font) (img : ImageRGB) (page : Nat) :
    (processPageTr font img page).1 = processPage font img page ∧
    ((processPageTr font img page).1 = none →
      (processPageTr font img page).2 =
        [Op.grayscale, Op.binarizeOp, Op.invertOp]) ∧
    ((processPageTr font img page).1 ≠ none →
      (processPageTr font img page).2 =
        [Op.grayscale, Op.binarizeOp, Op.invertOp,
         Op.composeOp, Op.stampTextOp]) := by
  simp only [processPageTr, processPage, preprocess]
  split <;> simp [renderPage]

/-- C4 amended-claim witness: the kept page `wImg` sees all five
operations in order. -/
theorem C4_transform_order_witness :
    (processPageTr defaultFont wImg 100).1 ≠ none ∧
    (processPageTr defaultFont wImg 100).2 =
      [Op.grayscale, Op.binarizeOp, Op.invertOp,
       Op.composeOp, Op.stampTextOp] :=
  ⟨by decide, (C4_transform_order defaultFont wImg 100).2.2 (by decide)⟩

/-- C6: with an empty sender address or sender credential, the Notifier
raises the `ValueError` with an empty effect trace — before the
attachment is read and before any network step; with both non-empty it
succeeds, and the trace reads the attachment, then connects, logs in and
sends. -/
theorem C6_notifier_credential_check (pdf_path sender_email
    sender_password recipient_email subject body : String) :
    ((sender_email = "" ∨ sender_password = "") →
      send_pdf_via_email pdf_path sender_email sender_password
        recipient_email subject body = ([], Except.error valueErrorMsg)) ∧
    (sender_email ≠ "" → sender_password ≠ "" →
      send_pdf_via_email pdf_path sender_email sender_password
        recipient_email subject body =
        ([EmailStep.readAttachment pdf_path,
          EmailStep.connect "smtp.seznam.cz" 465,
          EmailStep.login sender_email,
          EmailStep.sendMessage recipient_email], Except.ok ())) := by
  constructor
  · intro h
    rcases h with h | h <;> simp [send_pdf_via_email, h]
  · intro h1 h2
    simp [send_pdf_via_email, h1, h2]

/-- C6 witness: empty sender raises with an empty trace; a fully
configured call produces the full trace and no error. -/
theorem C6_notifier_credential_check_witness :
    send_pdf_via_email "a.pdf" "" "pw" "r" "s" "b" =
      ([], Except.error valueErrorMsg) ∧
    send_pdf_via_email "a.pdf" "u" "pw" "r" "s" "b" =
      ([EmailStep.readAttachment "a.pdf",
        EmailStep.connect "smtp.seznam.cz" 465,
        EmailStep.login "u",
        EmailStep.sendMessage "r"], Except.ok ()) :=
  ⟨(C6_notifier_credential_check "a.pdf" "" "pw" "r" "s" "b").1 (Or.inl rfl),
   (C6_notifier_credential_check "a.pdf" "u" "pw" "r" "s" "b").2
     (by decide) (by decide)⟩

/-- C8: the per-page transform is deterministic — any two runs of the
relational pipeline on the same font, source image and page number
produce equal rendered pages. -/
theorem C8_transform_deterministic (font : Font) (img : ImageRGB)
    (page : Nat) (o₁ o₂ : RenderedPage)
    (h₁ : PipelineRun font img page o₁)
    (h₂ : PipelineRun font img page o₂) : o₁ = o₂ := by
  cases h₁ with
  | run g₁ b₁ i₁ c₁ st₁ hg₁ hb₁ hi₁ hc₁ hst₁ =>
    cases h₂ with
    | run g₂ b₂ i₂ c₂ st₂ hg₂ hb₂ hi₂ hc₂ hst₂ =>
      subst hg₁ hb₁ hi₁ hc₁ hst₁ hg₂ hb₂ hi₂ hc₂ hst₂
      rfl

/-- C8 witness: two concrete runs of the pipeline on `wImg` at page 100
yield the same rendered page. -/
theorem C8_transform_deterministic_witness :
    (⟨composeCanvas (preprocess wImg),
      mkStamp defaultFont (preprocess wImg) 100⟩ : RenderedPage) = wRP := by
  have d1 : PipelineRun defaultFont wImg 100
      ⟨composeCanvas (preprocess wImg),
       mkStamp defaultFont (preprocess wImg) 100⟩ :=
    PipelineRun.run defaultFont wImg 100 (convertL wImg)
      (pointBin (convertL wImg)) (preprocess wImg)
      (composeCanvas (preprocess wImg))
      (mkStamp defaultFont (preprocess wImg) 100) rfl rfl rfl rfl rfl
  have d2 : PipelineRun defaultFont wImg 100 wRP :=
    PipelineRun.run defaultFont wImg 100 (convertL wImg)
      (pointBin (convertL wImg)) (preprocess wImg)
      (composeCanvas (preprocess wImg))
      (mkStamp defaultFont (preprocess wImg) 100) rfl rfl rfl rfl rfl
  exact C8_transform_deterministic defaultFont wImg 100 _ _ d1 d2

/-- C9: an empty range (start at or past the end) requests no pages,
saves no images, writes no files, and returns `none`. -/
theorem C9_empty_range (font : Font) (fetch : Nat → Response)
    (start_page end_page : Nat) (h : end_page ≤ start_page) :
    (download_teletext_images_and_create_pdf font fetch start_page
      end_page).requests = [] ∧
    (download_teletext_images_and_create_pdf font fetch start_page
      end_page).saved = [] ∧
    (download_teletext_images_and_create_pdf font fetch start_page
      end_page).writes = [] ∧
    (download_teletext_images_and_create_pdf font fetch start_page
      end_page).result = none := by
  have hr : pageRange start_page end_page = [] := by
    simp [pageRange, Nat.sub_eq_zero_of_le h]
  simp [download_teletext_images_and_create_pdf, hr, processPages]

/-- C9 witness: the concrete empty range [5, 3). -/
theorem C9_empty_range_witness :
    (3 : Nat) ≤ 5 ∧
    ((download_teletext_images_and_create_pdf defaultFont
        (fun _ => ⟨404, uniImg⟩) 5 3).requests = [] ∧
     (download_teletext_images_and_create_pdf defaultFont
        (fun _ => ⟨404, uniImg⟩) 5 3).saved = [] ∧
     (download_teletext_images_and_create_pdf defaultFont
        (fun _ => ⟨404, uniImg⟩) 5 3).writes = [] ∧
     (download_teletext_images_and_create_pdf defaultFont
        (fun _ => ⟨404, uniImg⟩) 5 3).result = none) :=
  ⟨by decide, C9_empty_range defaultFont (fun _ => ⟨404, uniImg⟩) 5 3
    (by decide)⟩

/-- The kept-page predicate of the fetch loop (lines 43-74): HTTP status
200 and a non-uniform preprocessed image. -/
def keptPage (fetch : Nat → Response) (p : Nat) : Bool :=
  decide ((fetch p).status = 200) &&
    !(isUniform (preprocess (fetch p).content))

/-- The page numbers of the saved images are exactly the pages of the
iterated list that satisfy the kept-page predicate, in list order. -/
lemma processPages_map_fst (font : Font) (fetch : Nat → Response) :
    ∀ pages : List Nat,
      (processPages font fetch pages).map Prod.fst =
        pages.filter (keptPage fetch)
  | [] => rfl
  | p :: rest => by
    simp only [processPages]
    by_cases h200 : (fetch p).status = 200
    · by_cases huni : isUniform (preprocess (fetch p).content) = true
      · have hnone : processPage font (fetch p).content p = none :=
          (processPage_eq_none_iff font (fetch p).content p).mpr huni
        simp [h200, hnone, List.filter_cons, keptPage, huni,
          processPages_map_fst font fetch rest]
      · have hsome : processPage font (fetch p).content p =
            some (renderPage font (preprocess (fetch p).content) p) := by
          simp [processPage, huni]
        simp [h200, hsome, List.filter_cons, keptPage, huni,
          processPages_map_fst font fetch rest]
    · simp [h200, List.filter_cons, keptPage,
        processPages_map_fst font fetch rest]

/-- When every page is fetch-failed or uniform, nothing is saved. -/
lemma processPages_eq_nil (font : Font) (fetch : Nat → Response)
    (pages : List Nat)
    (h : ∀ p ∈ pages, (fetch p).status ≠ 200 ∨
      isUniform (preprocess (fetch p).content) = true) :
    processPages font fetch pages = [] := by
  induction pages with
  | nil => rfl
  | cons p rest ih =>
    have ihrest := ih fun q hq => h q (List.mem_cons_of_mem p hq)
    simp only [processPages]
    rcases h p (List.mem_cons_self p rest) with h200 | huni
    · simp [h200, ihrest]
    · have hnone : processPage font (fetch p).content p = none :=
        (processPage_eq_none_iff font (fetch p).content p).mpr huni
      by_cases h200 : (fetch p).status = 200
      · simp [h200, hnone, ihrest]
      · simp [h200, ihrest]

/-- C2: whenever a document is produced, its pages are exactly those of
the fetch range that returned HTTP 200 and passed the uniformity filter,
in strictly ascending page-number order, with no duplicates. -/
theorem C2_document_pages (font : Font) (fetch : Nat → Response)
    (start_page end_page : Nat) (doc : List (Nat × RenderedPage))
    (hdoc : (download_teletext_images_and_create_pdf font fetch
      start_page end_page).result = some doc) :
    doc.map Prod.fst =
      (pageRange start_page end_page).filter (keptPage fetch) ∧
    List.Pairwise (· < ·) (doc.map Prod.fst) ∧
    (doc.map Prod.fst).Nodup := by
  have hdoc2 : doc = processPages font fetch
      (pageRange start_page end_page) := by
    simp only [download_teletext_images_and_create_pdf] at hdoc
    split at hdoc
    · simp at hdoc
    · simpa using hdoc.symm
  have hmap : doc.map Prod.fst =
      (pageRange start_page end_page).filter (keptPage fetch) := by
    rw [hdoc2]
    exact processPages_map_fst font fetch _
  have hpair : List.Pairwise (· < ·) (doc.map Prod.fst) := by
    rw [hmap]
    exact (List.pairwise_lt_range' start_page
      (end_page - start_page)).filter (keptPage fetch)
  exact ⟨hmap, hpair, hpair.imp Nat.ne_of_lt⟩

/-- A fetch environment in which every page succeeds with `wImg`. -/
def fetchW : Nat → Response := fun _ => ⟨200, wImg⟩

/-- C2 witness: the one-page range [100, 101) with a successful
non-uniform fetch yields the one-page document for page 100. -/
theorem C2_document_pages_witness :
    (download_teletext_images_and_create_pdf defaultFont fetchW
      100 101).result = some [(100, wRP)] ∧
    (([(100, wRP)] : List (Nat × RenderedPage)).map Prod.fst =
      (pageRange 100 101).filter (keptPage fetchW) ∧
     List.Pairwise (· < ·)
       (([(100, wRP)] : List (Nat × RenderedPage)).map Prod.fst) ∧
     (([(100, wRP)] : List (Nat × RenderedPage)).map Prod.fst).Nodup) :=
  ⟨by decide, C2_document_pages defaultFont fetchW 100 101 [(100, wRP)]
    (by decide)⟩

/-- A fetch environment in which every page fails with status 404. -/
def fetch404 : Nat → Response := fun _ => ⟨404, uniImg⟩

/-- C3: when every page of the default range [100, 170) is fetch-failed
or uniform, the run returns `none`, no PDF file is written, and the
Notifier is never invoked. -/
theorem C3_empty_run_no_document (font : Font) (fetch : Nat → Response)
    (sender_email sender_password recipient_email : String)
    (h : ∀ p ∈ pageRange 100 170, (fetch p).status ≠ 200 ∨
      isUniform (preprocess (fetch p).content) = true) :
    (download_teletext_images_and_create_pdf font fetch 100 170).result
      = none ∧
    FileWrite.pdf ∉
      (download_teletext_images_and_create_pdf font fetch 100 170).writes ∧
    main_run font fetch sender_email sender_password recipient_email
      = none := by
  have hnil := processPages_eq_nil font fetch (pageRange 100 170) h
  have hdl : download_teletext_images_and_create_pdf font fetch 100 170 =
      ⟨pageRange 100 170, [], [], none⟩ := by
    simp [download_teletext_images_and_create_pdf, hnil]
  refine ⟨?_, ?_, ?_⟩ <;> simp [main_run, hdl]

/-- C3 witness: all pages return 404. -/
theorem C3_empty_run_no_document_witness :
    (∀ p ∈ pageRange 100 170, (fetch404 p).status ≠ 200 ∨
      isUniform (preprocess (fetch404 p).content) = true) ∧
    ((download_teletext_images_and_create_pdf defaultFont fetch404
        100 170).result = none ∧
     FileWrite.pdf ∉
       (download_teletext_images_and_create_pdf defaultFont fetch404
         100 170).writes ∧
     main_run defaultFont fetch404 "u" "pw" "r" = none) :=
  ⟨by decide, C3_empty_run_no_document defaultFont fetch404 "u" "pw" "r"
    (by decide)⟩

/-- C7: a kept page's canvas keeps the image width, is 20 pixels taller,
consists of the preprocessed image rows followed by an all-white strip,
and its stamp is exactly the text `Page N` in black, horizontally centred
across the canvas width and vertically centred inside the strip. -/
theorem C7_footer_layout (font : Font) (img : ImageRGB) (page : Nat)
    (rp : RenderedPage)
    (hlen : img.data.length = img.width * img.height)
    (hk : processPage font img page = some rp) :
    rp.canvas.width = img.width ∧
    rp.canvas.height = img.height + 20 ∧
    rp.canvas.data =
      (preprocess img).data ++ List.replicate (img.width * 20) 255 ∧
    (∀ i, img.width * img.height ≤ i →
      ∀ hi : i < rp.canvas.data.length,
        rp.canvas.data.get ⟨i, hi⟩ = 255) ∧
    rp.stamp.text = "Page " ++ toString page ∧
    rp.stamp.fill = 0 ∧
    rp.stamp.pos =
      (((img.width : Int) - ((font.getbbox (pageText page)).x1 -
          (font.getbbox (pageText page)).x0)).fdiv 2,
       (img.height : Int) + ((20 : Int) -
          ((font.getbbox (pageText page)).y1 -
           (font.getbbox (pageText page)).y0)).fdiv 2) := by
  have hrp : rp = renderPage font (preprocess img) page := by
    simp only [processPage] at hk
    split at hk
    · exact absurd hk (by simp)
    · exact (Option.some_inj.mp hk).symm
  subst hrp
  have hpre : (preprocess img).data.length = img.width * img.height := by
    simp [preprocess, invertImg, pointBin, convertL, hlen]
  refine ⟨rfl, rfl, rfl, ?_, rfl, rfl, rfl⟩
  intro i hge hi
  simp only [renderPage, composeCanvas] at hi ⊢
  rw [List.get_eq_getElem,
    List.getElem_append_right (by rw [hpre]; exact hge),
    List.getElem_replicate]

/-- C7 witness: the kept page `wImg` at page number 100. -/
theorem C7_footer_layout_witness :
    wImg.data.length = wImg.width * wImg.height ∧
    processPage defaultFont wImg 100 = some wRP ∧
    (wRP.canvas.width = wImg.width ∧
     wRP.canvas.height = wImg.height + 20 ∧
     wRP.canvas.data =
       (preprocess wImg).data ++ List.replicate (wImg.width * 20) 255 ∧
     (∀ i, wImg.width * wImg.height ≤ i →
       ∀ hi : i < wRP.canvas.data.length,
         wRP.canvas.data.get ⟨i, hi⟩ = 255) ∧
     wRP.stamp.text = "Page " ++ toString 100 ∧
     wRP.stamp.fill = 0 ∧
     wRP.stamp.pos =
       (((wImg.width : Int) - ((defaultFont.getbbox (pageText 100)).x1 -
           (defaultFont.getbbox (pageText 100)).x0)).fdiv 2,
        (wImg.height : Int) + ((20 : Int) -
           ((defaultFont.getbbox (pageText 100)).y1 -
            (defaultFont.getbbox (pageText 100)).y0)).fdiv 2)) :=
  ⟨rfl, rfl, C7_footer_layout defaultFont wImg 100 wRP rfl rfl⟩

end Teletext
